import Mathlib

/-!
Verification of the TraderAI basal-reservoir core against its specification.

This file gives a shallow embedding, over the real numbers, of the code in
`src/ml/basal_reservoir_engine.py` and `src/ml/gct_basal_integration.py`:
the reservoir node dynamics (`update_energy`, `homeodynamic_learning`,
`adapt_target_energy`), the engine step and coherence/anticipation/prediction
operations, and the integrator bridge (`process_market_data_stream` and its
helper computations).  Python dictionaries keyed by node id are modelled as
association lists with unique keys; Python floats are modelled as real
numbers, so floating-point rounding and NaN behaviour are out of scope.
Python `float / float` raises `ZeroDivisionError` on a zero denominator; the
embedding models each such site explicitly with an `Except` value.  NumPy
array operations (`np.mean`, `np.std`, division of numpy scalars) do not
raise and are modelled as total real-valued operations with `x / 0 = 0`.
Randomized initialisation (node positions, initial energies, targets and
weights) is abstracted by quantifying over the initial state, with the
distribution support recorded as hypotheses where a claim depends on it.
-/

/-- Numpy clip: `np.clip(x, lo, hi) = min(hi, max(x, lo))`. -/
def npClip (x lo hi : ℝ) : ℝ := min hi (max x lo)

/-- Numpy mean of a list (`np.mean`); numpy yields NaN on an empty array, the
embedding yields 0 (every use below is either guarded or irrelevant there). -/
noncomputable def npMean (l : List ℝ) : ℝ := l.sum / l.length

/-- Numpy population variance (`np.var`). -/
noncomputable def npVar (l : List ℝ) : ℝ :=
  ((l.map fun x => (x - npMean l) ^ 2).sum) / l.length

/-- Numpy standard deviation (`np.std`). -/
noncomputable def npStd (l : List ℝ) : ℝ := Real.sqrt (npVar l)

/-- Python slice `l[-n:]`: the last `n` elements (the whole list if shorter). -/
def lastN (n : ℕ) (l : List α) : List α := l.drop (l.length - n)

/-- Bounded-history push used throughout the code: after an append, one
element is popped from the front when the length exceeds the cap. -/
def trimAfter (cap : ℕ) (l : List α) : List α := if cap < l.length then l.tail else l

/-- Python `dict.get(k, 0)` on a weight map. -/
def weightsGet (w : List (ℕ × ℝ)) (k : ℕ) : ℝ := (w.lookup k).getD 0

/-- Python `dict[k] = v`: replace the value when the key is present, append
otherwise (dicts preserve insertion order). -/
def dictSet (l : List (ℕ × ℝ)) (k : ℕ) (v : ℝ) : List (ℕ × ℝ) :=
  if (l.lookup k).isSome then l.map fun kv => if kv.1 = k then (k, v) else kv
  else l ++ [(k, v)]

theorem npClip_le {x lo hi : ℝ} : npClip x lo hi ≤ hi := min_le_left _ _

theorem le_npClip {x lo hi : ℝ} (h : lo ≤ hi) : lo ≤ npClip x lo hi :=
  le_min h (le_max_right _ _)

theorem npClip_of_mem {x lo hi : ℝ} (h1 : lo ≤ x) (h2 : x ≤ hi) : npClip x lo hi = x := by
  unfold npClip
  rw [max_eq_left h1, min_eq_right h2]

theorem npClip_mem01 (x : ℝ) : 0 ≤ npClip x 0 1 ∧ npClip x 0 1 ≤ 1 :=
  ⟨le_npClip zero_le_one, npClip_le⟩

/-- The saturating nonlinearity is strictly bounded: `|tanh x| < 1`. -/
theorem abs_tanh_lt_one (x : ℝ) : |Real.tanh x| < 1 := by
  have hc : 0 < Real.cosh x := Real.cosh_pos x
  have h1 : Real.sinh x < Real.cosh x := Real.sinh_lt_cosh x
  have h2 : -Real.cosh x < Real.sinh x := by
    have := Real.sinh_lt_cosh (-x)
    rw [Real.sinh_neg, Real.cosh_neg] at this
    linarith
  have habs : |Real.sinh x| < Real.cosh x := abs_lt.mpr ⟨h2, h1⟩
  rw [Real.tanh_eq_sinh_div_cosh, abs_div, abs_of_pos hc]
  rw [div_lt_one hc]
  exact habs

theorem tanh_mem_Icc (x : ℝ) : -1 ≤ Real.tanh x ∧ Real.tanh x ≤ 1 := by
  have h := abs_lt.mp (abs_tanh_lt_one x)
  exact ⟨le_of_lt h.1, le_of_lt h.2⟩

/-! ## Data model (from `basal_reservoir_engine.py`) -/

/-- Grounded Coherence Theory dimensions (dataclass `GCTDimensions`). -/
structure GCTDimensions where
  psi : ℝ
  rho : ℝ
  q : ℝ
  f : ℝ

/-- Configuration dataclass `BasalReservoirConfig`.  Counts are naturals,
rates and couplings are reals, as in the source. -/
structure BasalReservoirConfig where
  num_nodes : ℕ
  spatial_dimension : ℕ
  learning_rate : ℝ
  energy_decay : ℝ
  connection_radius : ℝ
  homeodynamic_strength : ℝ
  coherence_coupling : ℝ
  adaptation_rate : ℝ
  prediction_horizon : ℕ

/-- The dataclass field defaults of `BasalReservoirConfig`. -/
def BasalReservoirConfig.default : BasalReservoirConfig where
  num_nodes := 100
  spatial_dimension := 2
  learning_rate := 0.01
  energy_decay := 0.95
  connection_radius := 0.3
  homeodynamic_strength := 0.1
  coherence_coupling := 0.05
  adaptation_rate := 0.001
  prediction_horizon := 10

/-- One reservoir node (`BasalReservoirNode`).  The spatial `position` and the
`outgoing_weights` map are omitted: the position is read only by the topology
builder (abstracted into the initial state) and the outgoing weights are never
read after initialisation. -/
structure BasalReservoirNode where
  node_id : ℕ
  energy : ℝ
  target_energy : ℝ
  activation : ℝ
  incoming_weights : List (ℕ × ℝ)
  activation_history : List ℝ
  energy_history : List ℝ

/-- `BasalReservoirNode.update_energy`: tanh of weighted external input plus
0.8-damped weighted neighbour input, then the energy recurrence
`energy*decay + 0.1*activation - 0.05*(energy - target)` clamped to [0,1],
with both histories pushed (cap 100). -/
noncomputable def BasalReservoirNode.update_energy (node : BasalReservoirNode)
    (cfg : BasalReservoirConfig)
    (input_signals neighbor_activations : List (ℕ × ℝ)) : BasalReservoirNode :=
  let input_sum := ((input_signals.map fun p => weightsGet node.incoming_weights p.1 * p.2).sum)
  let neighbor_sum :=
    ((neighbor_activations.map fun p => weightsGet node.incoming_weights p.1 * p.2).sum)
  let energy_input := input_sum + 0.8 * neighbor_sum
  let activation := Real.tanh energy_input
  let energy_error := node.energy - node.target_energy
  let energy :=
    npClip (node.energy * cfg.energy_decay + 0.1 * activation - 0.05 * energy_error) 0 1
  { node with
    activation := activation
    energy := energy
    activation_history := trimAfter 100 (node.activation_history ++ [activation])
    energy_history := trimAfter 100 (node.energy_history ++ [energy]) }

/-- `BasalReservoirNode.homeodynamic_learning`: no-op on an empty neighbour
map or when the total weighted input is within 1e-6 of zero; otherwise every
weight whose source appears in the neighbour map is moved by the homeodynamic
rule and clamped to [-2,2]. -/
noncomputable def BasalReservoirNode.homeodynamic_learning (node : BasalReservoirNode)
    (cfg : BasalReservoirConfig) (neighbor_states : List (ℕ × ℝ)) : BasalReservoirNode :=
  if neighbor_states.isEmpty then node
  else
    let energy_error := node.energy - node.target_energy
    let total_weighted_input :=
      ((neighbor_states.map fun p => p.2 * weightsGet node.incoming_weights p.1).sum)
    if |total_weighted_input| < 1e-6 then node
    else
      { node with incoming_weights := node.incoming_weights.map fun kv =>
          match neighbor_states.lookup kv.1 with
          | some act =>
            (kv.1, npClip
              (kv.2 - cfg.learning_rate * energy_error * act * kv.2 / total_weighted_input)
              (-2) 2)
          | none => kv }

/-- `BasalReservoirNode.adapt_target_energy`: with at least 10 energy samples,
a very stable node (variance < 0.01) lowers its target by the adaptation rate
with floor 0.2, a very unstable one (variance > 0.1) raises it with ceiling
0.8. -/
noncomputable def BasalReservoirNode.adapt_target_energy (node : BasalReservoirNode)
    (cfg : BasalReservoirConfig) : BasalReservoirNode :=
  if 10 ≤ node.energy_history.length then
    let recent_energy := lastN 10 node.energy_history
    let energy_variance := npVar recent_energy
    if energy_variance < 0.01 then
      { node with target_energy := max 0.2 (node.target_energy - cfg.adaptation_rate) }
    else if 0.1 < energy_variance then
      { node with target_energy := min 0.8 (node.target_energy + cfg.adaptation_rate) }
    else node
  else node

/-! ## Engine (from `basal_reservoir_engine.py`) -/

/-- `BasalReservoirEngine` state.  The `adjacency_matrix` is read only during
weight initialisation (abstracted into the initial node states); the two
scalar performance metrics are never read on the paths under verification and
are omitted. -/
structure BasalReservoirEngine where
  config : BasalReservoirConfig
  nodes : List BasalReservoirNode
  coherence_state : GCTDimensions
  coherence_history : List ℝ
  anticipation_history : List ℝ

/-- Emotional regulatory constant γ. -/
def engineGamma : ℝ := 0.1

/-- Symbolic frequency coupling δ. -/
def engineDelta : ℝ := 0.15

/-- Memory activity damping ε. -/
def engineEpsilon : ℝ := 0.05

/-- The dict comprehension of current activations taken once, before any node
is updated, in `update_reservoir_state`. -/
def activationSnapshot (nodes : List BasalReservoirNode) : List (ℕ × ℝ) :=
  nodes.map fun n => (n.node_id, n.activation)

/-- The per-node filter of the snapshot: neighbours are entries of the
snapshot other than the node itself whose id appears in its incoming map. -/
def neighborStatesFor (snapshot : List (ℕ × ℝ)) (node : BasalReservoirNode) :
    List (ℕ × ℝ) :=
  snapshot.filter fun p =>
    (p.1 != node.node_id) && (node.incoming_weights.lookup p.1).isSome

/-- The loop body of `update_reservoir_state` for one node: update energy,
apply homeodynamic learning, adapt the target energy. -/
noncomputable def stepNode (cfg : BasalReservoirConfig) (snapshot ext : List (ℕ × ℝ))
    (node : BasalReservoirNode) : BasalReservoirNode :=
  let ns := neighborStatesFor snapshot node
  ((node.update_energy cfg ext ns).homeodynamic_learning cfg ns).adapt_target_energy cfg

/-- The sequential per-node loop of `update_reservoir_state`: nodes are
processed one at a time in list order, each finished node being written back
(accumulated in `done`) before the next is read. -/
noncomputable def updateNodesLoop (cfg : BasalReservoirConfig) (snapshot ext : List (ℕ × ℝ))
    (done : List BasalReservoirNode) :
    List BasalReservoirNode → List BasalReservoirNode
  | [] => done
  | n :: rest => updateNodesLoop cfg snapshot ext (done ++ [stepNode cfg snapshot ext n]) rest

/-- `BasalReservoirEngine.update_reservoir_state`: snapshot the activations,
run the sequential per-node loop, return the new engine and the activation
vector in node order. -/
noncomputable def BasalReservoirEngine.update_reservoir_state (eng : BasalReservoirEngine)
    (external_inputs : List (ℕ × ℝ)) : BasalReservoirEngine × List ℝ :=
  let snapshot := activationSnapshot eng.nodes
  let newNodes := updateNodesLoop eng.config snapshot external_inputs [] eng.nodes
  ({ eng with nodes := newNodes }, newNodes.map fun n => n.activation)

/-- `_compute_symbolic_acceptance`: `exp(-2 * var(activations))`. -/
noncomputable def BasalReservoirEngine.compute_symbolic_acceptance
    (eng : BasalReservoirEngine) : ℝ :=
  Real.exp (-2 * npVar (eng.nodes.map fun n => n.activation))

/-- Magnitude of the k-th discrete Fourier coefficient of a real sequence,
`abs(np.fft.fft(xs))[k]`. -/
noncomputable def fftPower (xs : List ℝ) (k : ℕ) : ℝ :=
  Complex.abs ((Finset.range xs.length).sum fun j =>
    ((xs.getD j 0 : ℝ) : ℂ) *
      Complex.exp (-(2 * Real.pi * Complex.I * (j : ℂ) * (k : ℂ)) / (xs.length : ℂ)))

/-- First index attaining the maximum of `f` over a candidate list
(`np.argmax` returns the first maximising index). -/
noncomputable def argmaxIdx (f : ℕ → ℝ) : List ℕ → ℕ
  | [] => 0
  | [k] => k
  | k :: rest =>
    let m := argmaxIdx f rest
    if f k < f m then m else k

/-- `_compute_symbolic_frequency`: with fewer than 5 recorded coherence values
the current `coherence_state.f` is returned unchanged; otherwise the dominant
FFT frequency index of the last 20 values (argmax over indices 1 .. n/2 - 1,
first maximum) is normalised by the window length, scaled by 5 and capped at
1. -/
noncomputable def BasalReservoirEngine.compute_symbolic_frequency
    (eng : BasalReservoirEngine) : ℝ :=
  if eng.coherence_history.length < 5 then eng.coherence_state.f
  else
    let recent_coherence := lastN 20 eng.coherence_history
    let n := recent_coherence.length
    let dominant_frequency := argmaxIdx (fftPower recent_coherence) (List.range' 1 (n / 2 - 1))
    let normalized_freq := (dominant_frequency : ℝ) / (n : ℝ)
    min 1 (normalized_freq * 5)

/-- `_compute_mental_activity`: mean absolute last energy delta over nodes
with at least two energy samples. -/
noncomputable def BasalReservoirEngine.compute_mental_activity
    (eng : BasalReservoirEngine) : ℝ :=
  if eng.nodes.isEmpty then 0
  else
    let energy_changes := eng.nodes.filterMap fun nd =>
      if 2 ≤ nd.energy_history.length then
        some |nd.energy_history.getD (nd.energy_history.length - 1) 0 -
          nd.energy_history.getD (nd.energy_history.length - 2) 0|
      else none
    if energy_changes.isEmpty then 0 else npMean energy_changes

/-- `compute_enhanced_coherence`: Euler step of
`dψ/dt = -γP + δF - εM + φΣ(energy - target)` with Δ = 0.01, clamped to
[0,1], appended to the coherence history and returned. -/
noncomputable def BasalReservoirEngine.compute_enhanced_coherence
    (eng : BasalReservoirEngine) : BasalReservoirEngine × ℝ :=
  let basal_contribution :=
    eng.config.coherence_coupling * ((eng.nodes.map fun n => n.energy - n.target_energy).sum)
  let P_t := eng.compute_symbolic_acceptance
  let F_t := eng.compute_symbolic_frequency
  let M_t := eng.compute_mental_activity
  let coherence_derivative :=
    -engineGamma * P_t + engineDelta * F_t - engineEpsilon * M_t + basal_contribution
  let new_psi := npClip (eng.coherence_state.psi + 0.01 * coherence_derivative) 0 1
  ({ eng with
      coherence_state := { eng.coherence_state with psi := new_psi }
      coherence_history := eng.coherence_history ++ [new_psi] },
    new_psi)

/-- `compute_anticipation_capacity`: `φ·Σ(energy - target)`, appended to the
anticipation history and returned; not clamped. -/
noncomputable def BasalReservoirEngine.compute_anticipation_capacity
    (eng : BasalReservoirEngine) : BasalReservoirEngine × ℝ :=
  let anticipation :=
    eng.config.coherence_coupling * ((eng.nodes.map fun n => n.energy - n.target_energy).sum)
  ({ eng with anticipation_history := eng.anticipation_history ++ [anticipation] },
    anticipation)

/-- Aggregate snapshot returned by `get_reservoir_state` (a string-keyed dict
in the source, with exactly these seven entries). -/
structure ReservoirStateSnapshot where
  num_nodes : ℕ
  average_energy : ℝ
  energy_variance : ℝ
  average_activation : ℝ
  enhanced_coherence : ℝ
  anticipation_capacity : ℝ
  connection_density : ℝ

/-- `get_reservoir_state`. -/
noncomputable def BasalReservoirEngine.get_reservoir_state (eng : BasalReservoirEngine) :
    ReservoirStateSnapshot where
  num_nodes := eng.nodes.length
  average_energy := npMean (eng.nodes.map fun n => n.energy)
  energy_variance := npVar (eng.nodes.map fun n => n.energy)
  average_activation := npMean (eng.nodes.map fun n => n.activation)
  enhanced_coherence := eng.coherence_state.psi
  anticipation_capacity := (eng.anticipation_history.getLast?).getD 0
  connection_density := npMean (eng.nodes.map fun n => (n.incoming_weights.length : ℝ))

/-- `_encode_market_data`: z-score the window, spread the first
`min(num_nodes/4, len)` samples over evenly spaced node ids. -/
noncomputable def BasalReservoirEngine.encode_market_data (eng : BasalReservoirEngine)
    (market_data : List ℝ) : List (ℕ × ℝ) :=
  if market_data.isEmpty then []
  else
    let normalized_data :=
      market_data.map fun x => (x - npMean market_data) / (npStd market_data + 1e-8)
    let num_input_nodes := min (eng.nodes.length / 4) normalized_data.length
    (List.range num_input_nodes).filterMap fun i =>
      if i < normalized_data.length then
        some (i * (eng.nodes.length / num_input_nodes), normalized_data.getD i 0)
      else none

/-- `_decode_prediction`: `np.average(activations, weights = |a|+0.1)` blended
with coherence and anticipation.  `np.average` is the weighted sum divided by
the weight sum; the weight sum is at least 0.1 per node, hence positive for
every engine built by the constructor (`num_nodes > 0`); `np.average` on an
empty array would raise inside the caller's try/except instead. -/
noncomputable def decode_prediction (activations : List ℝ)
    (coherence anticipation : ℝ) : ℝ :=
  let w := activations.map fun a => |a| + 0.1
  let weighted_activation :=
    (List.zipWith (fun a b => a * b) activations w).sum / w.sum
  0.6 * weighted_activation + 0.3 * coherence + 0.1 * anticipation

/-- The prediction loop of `predict_market_pattern`: the market inputs are fed
only on the first step, later steps run the internal dynamics; after each step
coherence and anticipation are recomputed and one scalar is decoded. -/
noncomputable def predictLoop : ℕ → BasalReservoirEngine → List (ℕ × ℝ) →
    BasalReservoirEngine × List ℝ
  | 0, eng, _ => (eng, [])
  | s + 1, eng, inputs =>
    let p1 := eng.update_reservoir_state inputs
    let p2 := p1.1.compute_enhanced_coherence
    let p3 := p2.1.compute_anticipation_capacity
    let prediction := decode_prediction p1.2 p2.2 p3.2
    let p4 := predictLoop s p3.1 []
    (p4.1, prediction :: p4.2)

/-- `predict_market_pattern`: a zero vector of the requested length when fewer
than 10 samples are supplied, otherwise the prediction loop seeded with the
encoded last 10 samples. -/
noncomputable def BasalReservoirEngine.predict_market_pattern (eng : BasalReservoirEngine)
    (market_data : List ℝ) (steps_ahead : ℕ) : BasalReservoirEngine × List ℝ :=
  if market_data.length < 10 then (eng, List.replicate steps_ahead 0)
  else
    let market_inputs := eng.encode_market_data (lastN 10 market_data)
    predictLoop steps_ahead eng market_inputs

/-- Iterate engine steps over a list of per-step external input maps. -/
noncomputable def runEngineSteps (eng : BasalReservoirEngine) :
    List (List (ℕ × ℝ)) → BasalReservoirEngine
  | [] => eng
  | ext :: rest => runEngineSteps (eng.update_reservoir_state ext).1 rest

/-- Least-squares slope of `np.polyfit(range(n), ys, 1)` with abscissas
`0, 1, ..., n-1`: `(n·Σxy - Σx·Σy) / (n·Σx² - (Σx)²)`. -/
noncomputable def polyfitSlope (ys : List ℝ) : ℝ :=
  let n : ℝ := ys.length
  let xs := (List.range ys.length).map fun i => (i : ℝ)
  let sx := xs.sum
  let sy := ys.sum
  let sxy := (List.zipWith (fun a b => a * b) xs ys).sum
  let sxx := (xs.map fun x => x ^ 2).sum
  (n * sxy - sx * sy) / (n * sxx - sx ^ 2)

/-! ## Integrator (from `gct_basal_integration.py`) -/

/-- Dataclass `MarketDataPoint`.  The timestamp (a `datetime`) is modelled as
a real number; `coherence_scores` is an optional string-keyed float dict. -/
structure MarketDataPoint where
  timestamp : ℝ
  symbol : String
  price : ℝ
  volume : ℤ
  sentiment : Option ℝ
  coherence_scores : Option (List (String × ℝ))

/-- Dataclass `EnhancedCoherenceResult`.  `reservoir_state` is `none` for the
empty dict used by the fallback result; `timestamp` records the wall-clock
instant at which the result object was created (`datetime.now`). -/
structure EnhancedCoherenceResult where
  traditional_gct : GCTDimensions
  basal_enhanced_gct : GCTDimensions
  anticipation_capacity : ℝ
  prediction_confidence : ℝ
  symbolic_resonance : ℝ
  adaptation_efficiency : ℝ
  reservoir_state : Option ReservoirStateSnapshot
  timestamp : ℝ

/-- Integrator state.  `gct_params` is a constant dict never read on the
verified paths; `prediction_cache`, `adaptation_metrics`, the thread pool and
the `is_running` flag are never read at all, so they are omitted. -/
structure GCTBasalIntegrator where
  basal_engine : BasalReservoirEngine
  integration_strength : ℝ
  market_history : List MarketDataPoint
  coherence_results : List EnhancedCoherenceResult
  prediction_accuracy_tracker : List ℝ
  coherence_stability_tracker : List ℝ

/-- `_compute_traditional_gct`, evaluated on the history with the new point
already appended.  The only raising site is the Python float division by
`recent_prices[-3]` on the sentiment-free momentum path; every other
denominator is a numpy scalar guarded by `+ 1e-8`. -/
noncomputable def compute_traditional_gct (hist : List MarketDataPoint)
    (d : MarketDataPoint) : Except Unit GCTDimensions :=
  let recent_prices := (lastN 20 hist).map fun p => p.price
  let recent_volumes := (lastN 20 hist).map fun p => (p.volume : ℝ)
  if recent_prices.length < 5 then .ok ⟨0.5, 0.5, 0.5, 0.5⟩
  else
    let p10 := lastN 10 recent_prices
    let price_volatility := npStd p10 / (npMean p10 + 1e-8)
    let psi := Real.exp (-2 * price_volatility)
    let rho :=
      if 10 ≤ recent_prices.length then
        let price_trend := polyfitSlope p10
        let trend_strength := |price_trend| / (npMean p10 + 1e-8)
        min 1 (trend_strength * 10)
      else 0.5
    let q :=
      if 5 ≤ recent_volumes.length then
        let vr := recent_volumes.getD (recent_volumes.length - 1) 0 /
          (npMean (lastN 5 recent_volumes) + 1e-8)
        min 1 (max 0 ((vr - 0.5) * 2))
      else 0.5
    match d.sentiment with
    | some s =>
      .ok ⟨npClip psi 0 1, npClip rho 0 1, npClip q 0 1, npClip ((s + 1) / 2) 0 1⟩
    | none =>
      if 3 ≤ recent_prices.length then
        let p3 := recent_prices.getD (recent_prices.length - 3) 0
        if p3 = 0 then .error ()
        else
          let momentum := (recent_prices.getD (recent_prices.length - 1) 0 - p3) / p3
          let f := (Real.tanh (momentum * 10) + 1) / 2
          .ok ⟨npClip psi 0 1, npClip rho 0 1, npClip q 0 1, npClip f 0 1⟩
      else
        .ok ⟨npClip psi 0 1, npClip rho 0 1, npClip q 0 1, npClip 0.5 0 1⟩

/-- `_prepare_market_data_for_reservoir`: a zero vector of length 10 with
fewer than 5 points of history, otherwise the concatenated z-scored last 10
prices and volumes padded/truncated to length 20. -/
noncomputable def prepare_market_data_for_reservoir (hist : List MarketDataPoint) :
    List ℝ :=
  if hist.length < 5 then List.replicate 10 0
  else
    let recent_data := lastN 20 hist
    let prices := recent_data.map fun p => p.price
    let volumes := recent_data.map fun p => (p.volume : ℝ)
    let prices_norm := prices.map fun x => (x - npMean prices) / (npStd prices + 1e-8)
    let volumes_norm := volumes.map fun x => (x - npMean volumes) / (npStd volumes + 1e-8)
    let combined := lastN 10 prices_norm ++ lastN 10 volumes_norm
    let padded :=
      if combined.length < 20 then combined ++ List.replicate (20 - combined.length) 0
      else combined
    padded.take 20

/-- `_encode_market_signals`, evaluated on the history with the new point
already appended.  The price-change division by `market_history[-2].price` is
a raising Python float division; the volume ratio is a numpy division guarded
by `+ 1e-8`. -/
noncomputable def encode_market_signals (hist : List MarketDataPoint) (numNodes : ℕ)
    (d : MarketDataPoint) : Except Unit (List (ℕ × ℝ)) :=
  let s0 : Except Unit (List (ℕ × ℝ)) :=
    if 2 ≤ hist.length then
      let prev := (hist.getD (hist.length - 2) d).price
      if prev = 0 then .error ()
      else
        let price_change := (d.price - prev) / prev
        .ok (dictSet [] 0 (Real.tanh (price_change * 100)))
    else .ok []
  match s0 with
  | .error e => .error e
  | .ok signals0 =>
    let signals1 :=
      if 5 ≤ hist.length then
        let recent_volumes := (lastN 5 hist).map fun p => (p.volume : ℝ)
        let vr := (d.volume : ℝ) / (npMean recent_volumes + 1e-8)
        dictSet signals0 (numNodes / 4) (Real.tanh (vr - 1))
      else signals0
    match d.sentiment with
    | some s => .ok (dictSet signals1 (numNodes / 2) s)
    | none => .ok signals1

/-- `_integrate_coherence_approaches`: the blend of the traditional vector
with the basal coherence, anticipation boost, mean reservoir energy and
normalised mean activation, every component clamped to [0,1].  `eng` is the
engine state at the moment of the call (after the step and the coherence and
anticipation computations). -/
noncomputable def integrate_coherence_approaches (alpha : ℝ)
    (eng : BasalReservoirEngine) (traditional : GCTDimensions)
    (basal_coherence anticipation : ℝ) : GCTDimensions :=
  let enhanced_psi := (1 - alpha) * traditional.psi + alpha * basal_coherence
  let anticipation_boost := npClip anticipation (-0.5) 0.5
  let enhanced_rho := traditional.rho + alpha * anticipation_boost
  let reservoir_energy := eng.get_reservoir_state.average_energy
  let enhanced_q := (1 - alpha) * traditional.q + alpha * reservoir_energy
  let reservoir_activation := eng.get_reservoir_state.average_activation
  let activation_normalized := (Real.tanh reservoir_activation + 1) / 2
  let enhanced_f := (1 - alpha) * traditional.f + alpha * activation_normalized
  ⟨npClip enhanced_psi 0 1, npClip enhanced_rho 0 1,
    npClip enhanced_q 0 1, npClip enhanced_f 0 1⟩

/-- `_compute_symbolic_resonance`, on the appended history and the engine
state after the step.  The 3-sample price momentum is a raising Python float
division; near-zero momenta short-circuit the resonance to 0; the result is
mapped from [-1,1] to [0,1]. -/
noncomputable def compute_symbolic_resonance (hist : List MarketDataPoint)
    (eng : BasalReservoirEngine) (d : MarketDataPoint) : Except Unit ℝ :=
  let pm : Except Unit ℝ :=
    if 3 ≤ hist.length then
      let p3 := (hist.getD (hist.length - 3) d).price
      if p3 = 0 then .error () else .ok ((d.price - p3) / p3)
    else .ok 0
  match pm with
  | .error e => .error e
  | .ok price_momentum =>
    let reservoir_momentum :=
      match eng.nodes with
      | [] => 0
      | n0 :: _ =>
        if 2 ≤ n0.activation_history.length then
          npMean (eng.nodes.filterMap fun nd =>
            if 2 ≤ nd.activation_history.length then
              some (nd.activation_history.getD (nd.activation_history.length - 1) 0 -
                nd.activation_history.getD (nd.activation_history.length - 2) 0)
            else none)
        else 0
    let resonance :=
      if 1e-6 < |price_momentum| ∧ 1e-6 < |reservoir_momentum| then
        Real.tanh (price_momentum * reservoir_momentum * 1000)
      else 0
    .ok ((resonance + 1) / 2)

/-- `_compute_prediction_confidence`: a 3-step internal prediction (mutating
the engine), confidence `exp(-var*10)` times the stability factor
`exp(-energy_variance*5)`, clamped to [0,1].  The try/except wrapping this in
the source only guards the `np.average` zero-weight raise on a node-less
engine, which the constructor (`num_nodes > 0`) excludes. -/
noncomputable def compute_prediction_confidence (eng : BasalReservoirEngine)
    (market_data : List ℝ) : BasalReservoirEngine × ℝ :=
  let p := eng.predict_market_pattern market_data 3
  let predictions := p.2
  let confidence :=
    if 2 ≤ predictions.length then Real.exp (-(npVar predictions) * 10) else 0.5
  let energy_variance := p.1.get_reservoir_state.energy_variance
  let stability_factor := Real.exp (-energy_variance * 5)
  (p.1, npClip (confidence * stability_factor) 0 1)

/-- `_compute_adaptation_efficiency`: neutral 0.5 with fewer than 10 results;
otherwise the mean enhanced-psi of the last 10 results is compared with that
of the preceding 10 (or with itself below 20 results) and the improvement is
squashed into [0,1]. -/
noncomputable def compute_adaptation_efficiency
    (results : List EnhancedCoherenceResult) : ℝ :=
  if results.length < 10 then 0.5
  else
    let recent_coherence := (lastN 10 results).map fun r => r.basal_enhanced_gct.psi
    let earlier_coherence :=
      if 20 ≤ results.length then
        ((lastN 20 results).take 10).map fun r => r.basal_enhanced_gct.psi
      else recent_coherence
    if earlier_coherence.isEmpty then 0.5
    else
      let improvement := npMean recent_coherence - npMean earlier_coherence
      (Real.tanh (improvement * 5) + 1) / 2

/-- `_update_performance_metrics`: with at least two history points the price
change over the last two points (a raising Python float division) is compared
in sign with the anticipation to log a 0/1 accuracy sample (cap 100); the
enhanced psi is always pushed onto the stability tracker (cap 50). -/
noncomputable def update_performance_metrics (intg : GCTBasalIntegrator)
    (r : EnhancedCoherenceResult) : Except Unit GCTBasalIntegrator :=
  let step1 : Except Unit GCTBasalIntegrator :=
    if 2 ≤ intg.market_history.length then
      let lastP := (intg.market_history.getD (intg.market_history.length - 1)
        ⟨0, "", 0, 0, none, none⟩).price
      let prevP := (intg.market_history.getD (intg.market_history.length - 2)
        ⟨0, "", 0, 0, none, none⟩).price
      if prevP = 0 then .error ()
      else
        let price_change := (lastP - prevP) / prevP
        let accuracy : ℝ :=
          if (0 < price_change ∧ 0 < r.anticipation_capacity) ∨
              (price_change < 0 ∧ r.anticipation_capacity < 0) then 1 else 0
        .ok { intg with prediction_accuracy_tracker :=
                trimAfter 100 (intg.prediction_accuracy_tracker ++ [accuracy]) }
    else .ok intg
  match step1 with
  | .error e => .error e
  | .ok intg1 =>
    .ok { intg1 with coherence_stability_tracker :=
            trimAfter 50 (intg1.coherence_stability_tracker ++ [r.basal_enhanced_gct.psi]) }

/-- `_create_fallback_result`: the neutral result returned when processing a
data point raises. -/
def create_fallback_result (now : ℝ) : EnhancedCoherenceResult where
  traditional_gct := ⟨0.5, 0.5, 0.5, 0.5⟩
  basal_enhanced_gct := ⟨0.5, 0.5, 0.5, 0.5⟩
  anticipation_capacity := 0
  prediction_confidence := 0
  symbolic_resonance := 0
  adaptation_efficiency := 0
  reservoir_state := none
  timestamp := now

/-- Outcome of the final metric update: a raise there discards the computed
result (the caller falls back), a success returns the result alongside the
updated state. -/
def finishWrap (i2 : GCTBasalIntegrator) (r : EnhancedCoherenceResult) :
    Except Unit GCTBasalIntegrator →
    Except GCTBasalIntegrator (GCTBasalIntegrator × EnhancedCoherenceResult)
  | .error _ => .error i2
  | .ok i3 => .ok (i3, r)

/-- Tail of the try body of `process_market_data_stream` after the symbolic
resonance succeeded: optional prediction confidence (which steps the engine),
result assembly with the wall-clock timestamp `now`, result-log append (cap
500), and the performance-metric update whose division can still raise. -/
noncomputable def processFinish (now : ℝ) (i1 : GCTBasalIntegrator) (enable_prediction : Bool)
    (market_array : List ℝ) (traditional_gct : GCTDimensions)
    (basal_coherence anticipation symbolic_resonance : ℝ) (e3 : BasalReservoirEngine) :
    Except GCTBasalIntegrator (GCTBasalIntegrator × EnhancedCoherenceResult) :=
  let enhanced_gct :=
    integrate_coherence_approaches i1.integration_strength e3 traditional_gct
      basal_coherence anticipation
  let s4 :=
    if enable_prediction then compute_prediction_confidence e3 market_array
    else (e3, 0)
  let result : EnhancedCoherenceResult :=
    { traditional_gct := traditional_gct
      basal_enhanced_gct := enhanced_gct
      anticipation_capacity := anticipation
      prediction_confidence := s4.2
      symbolic_resonance := symbolic_resonance
      adaptation_efficiency := compute_adaptation_efficiency i1.coherence_results
      reservoir_state := some s4.1.get_reservoir_state
      timestamp := now }
  let i2 := { i1 with
    basal_engine := s4.1
    coherence_results := trimAfter 500 (i1.coherence_results ++ [result]) }
  finishWrap i2 result (update_performance_metrics i2 result)

/-- Continuation on the symbolic-resonance outcome: a raise there surfaces
with the engine already stepped; success proceeds to the final stage. -/
noncomputable def resonanceCont (now : ℝ) (i1 : GCTBasalIntegrator)
    (enable_prediction : Bool) (market_array : List ℝ)
    (traditional_gct : GCTDimensions) (basal_coherence anticipation : ℝ)
    (e3 : BasalReservoirEngine) :
    Except Unit ℝ →
    Except GCTBasalIntegrator (GCTBasalIntegrator × EnhancedCoherenceResult)
  | .error _ => .error { i1 with basal_engine := e3 }
  | .ok symbolic_resonance =>
    processFinish now i1 enable_prediction market_array traditional_gct
      basal_coherence anticipation symbolic_resonance e3

/-- Middle of the try body after the traditional vector and the encoded
reservoir inputs are available: engine step, coherence and anticipation
(threading the engine state), then the symbolic resonance, whose momentum
division can raise with the engine already mutated. -/
noncomputable def processWithSignals (now : ℝ) (i1 : GCTBasalIntegrator)
    (d : MarketDataPoint) (enable_prediction : Bool) (traditional_gct : GCTDimensions)
    (reservoir_inputs : List (ℕ × ℝ)) :
    Except GCTBasalIntegrator (GCTBasalIntegrator × EnhancedCoherenceResult) :=
  let market_array := prepare_market_data_for_reservoir i1.market_history
  let s1 := i1.basal_engine.update_reservoir_state reservoir_inputs
  let s2 := s1.1.compute_enhanced_coherence
  let s3 := s2.1.compute_anticipation_capacity
  resonanceCont now i1 enable_prediction market_array traditional_gct s2.2 s3.2 s3.1
    (compute_symbolic_resonance i1.market_history s3.1 d)

/-- Continuation on the encoded-signals outcome. -/
noncomputable def encodeCont (now : ℝ) (i1 : GCTBasalIntegrator)
    (d : MarketDataPoint) (enable_prediction : Bool)
    (traditional_gct : GCTDimensions) :
    Except Unit (List (ℕ × ℝ)) →
    Except GCTBasalIntegrator (GCTBasalIntegrator × EnhancedCoherenceResult)
  | .error _ => .error i1
  | .ok reservoir_inputs =>
    processWithSignals now i1 d enable_prediction traditional_gct reservoir_inputs

/-- Continuation on the traditional-model outcome. -/
noncomputable def traditionalCont (now : ℝ) (i1 : GCTBasalIntegrator)
    (d : MarketDataPoint) (enable_prediction : Bool) :
    Except Unit GCTDimensions →
    Except GCTBasalIntegrator (GCTBasalIntegrator × EnhancedCoherenceResult)
  | .error _ => .error i1
  | .ok traditional_gct =>
    encodeCont now i1 d enable_prediction traditional_gct
      (encode_market_signals i1.market_history i1.basal_engine.nodes.length d)

/-- The body of the `try` block of `process_market_data_stream`, threading the
engine and integrator state exactly in source order.  An `error` value carries
the integrator state as already mutated at the raising site, which is what the
`except` handler observes.  `now` is the wall-clock reading used for the
result's creation timestamp. -/
noncomputable def tryProcessMarketData (now : ℝ) (intg : GCTBasalIntegrator)
    (d : MarketDataPoint) (enable_prediction : Bool) :
    Except GCTBasalIntegrator (GCTBasalIntegrator × EnhancedCoherenceResult) :=
  let hist := trimAfter 1000 (intg.market_history ++ [d])
  let i1 := { intg with market_history := hist }
  traditionalCont now i1 d enable_prediction (compute_traditional_gct hist d)

/-- `process_market_data_stream`: the try body, with any raise converted at
the boundary into the neutral fallback result. -/
noncomputable def process_market_data_stream (now : ℝ) (intg : GCTBasalIntegrator)
    (d : MarketDataPoint) (enable_prediction : Bool) :
    GCTBasalIntegrator × EnhancedCoherenceResult :=
  match tryProcessMarketData now intg d enable_prediction with
  | .ok r => r
  | .error i1 => (i1, create_fallback_result now)

/-- Feed an ordered list of (wall-clock reading, data point) pairs through the
integrator, collecting the returned results in order. -/
noncomputable def runStream (intg : GCTBasalIntegrator) :
    List (ℝ × MarketDataPoint) → GCTBasalIntegrator × List EnhancedCoherenceResult
  | [] => (intg, [])
  | (t, d) :: rest =>
    let p := process_market_data_stream t intg d true
    let q := runStream p.1 rest
    (q.1, p.2 :: q.2)

/-! ## Helper lemmas -/

theorem abs_npClip_le {x c : ℝ} (hc : 0 ≤ c) : |npClip x (-c) c| ≤ c :=
  abs_le.mpr ⟨le_npClip (by linarith), npClip_le⟩

theorem updateNodesLoop_eq (cfg : BasalReservoirConfig) (snapshot ext : List (ℕ × ℝ)) :
    ∀ (todo done : List BasalReservoirNode),
      updateNodesLoop cfg snapshot ext done todo =
        done ++ todo.map (stepNode cfg snapshot ext) := by
  intro todo
  induction todo with
  | nil => intro done; simp [updateNodesLoop]
  | cons n rest ih =>
    intro done
    rw [updateNodesLoop, ih]
    simp

theorem update_energy_energy_mem (node : BasalReservoirNode) (cfg : BasalReservoirConfig)
    (a b : List (ℕ × ℝ)) :
    0 ≤ (node.update_energy cfg a b).energy ∧ (node.update_energy cfg a b).energy ≤ 1 := by
  simp only [BasalReservoirNode.update_energy]
  exact npClip_mem01 _

theorem update_energy_weights (node : BasalReservoirNode) (cfg : BasalReservoirConfig)
    (a b : List (ℕ × ℝ)) :
    (node.update_energy cfg a b).incoming_weights = node.incoming_weights := rfl

theorem update_energy_target (node : BasalReservoirNode) (cfg : BasalReservoirConfig)
    (a b : List (ℕ × ℝ)) :
    (node.update_energy cfg a b).target_energy = node.target_energy := rfl

theorem homeodynamic_learning_energy (node : BasalReservoirNode)
    (cfg : BasalReservoirConfig) (ns : List (ℕ × ℝ)) :
    (node.homeodynamic_learning cfg ns).energy = node.energy := by
  simp only [BasalReservoirNode.homeodynamic_learning]
  split
  · rfl
  · split <;> rfl

theorem homeodynamic_learning_target (node : BasalReservoirNode)
    (cfg : BasalReservoirConfig) (ns : List (ℕ × ℝ)) :
    (node.homeodynamic_learning cfg ns).target_energy = node.target_energy := by
  simp only [BasalReservoirNode.homeodynamic_learning]
  split
  · rfl
  · split <;> rfl

theorem homeodynamic_learning_weights (node : BasalReservoirNode)
    (cfg : BasalReservoirConfig) (ns : List (ℕ × ℝ)) :
    ∀ kv ∈ (node.homeodynamic_learning cfg ns).incoming_weights,
      kv ∈ node.incoming_weights ∨ |kv.2| ≤ 2 := by
  simp only [BasalReservoirNode.homeodynamic_learning]
  split
  · exact fun kv h => Or.inl h
  · split
    · exact fun kv h => Or.inl h
    · intro kv hkv
      simp only [List.mem_map] at hkv
      obtain ⟨kv0, hkv0, heq⟩ := hkv
      cases hl : ns.lookup kv0.1 with
      | none => rw [hl] at heq; exact Or.inl (heq ▸ hkv0)
      | some act =>
        rw [hl] at heq
        right
        rw [← heq]
        exact abs_npClip_le (by norm_num)

theorem adapt_target_energy_energy (node : BasalReservoirNode)
    (cfg : BasalReservoirConfig) :
    (node.adapt_target_energy cfg).energy = node.energy := by
  simp only [BasalReservoirNode.adapt_target_energy]
  split
  · split
    · rfl
    · split <;> rfl
  · rfl

theorem adapt_target_energy_weights (node : BasalReservoirNode)
    (cfg : BasalReservoirConfig) :
    (node.adapt_target_energy cfg).incoming_weights = node.incoming_weights := by
  simp only [BasalReservoirNode.adapt_target_energy]
  split
  · split
    · rfl
    · split <;> rfl
  · rfl

theorem adapt_target_energy_window (node : BasalReservoirNode)
    (cfg : BasalReservoirConfig) (hrate : 0 ≤ cfg.adaptation_rate)
    (h1 : 0.2 ≤ node.target_energy) (h2 : node.target_energy ≤ 0.8) :
    0.2 ≤ (node.adapt_target_energy cfg).target_energy ∧
      (node.adapt_target_energy cfg).target_energy ≤ 0.8 := by
  simp only [BasalReservoirNode.adapt_target_energy]
  split
  · split
    · constructor
      · exact le_max_left _ _
      · exact max_le (by norm_num) (by linarith)
    · split
      · constructor
        · exact le_min (by norm_num) (by linarith)
        · exact min_le_left _ _
      · exact ⟨h1, h2⟩
  · exact ⟨h1, h2⟩

theorem stepNode_energy_mem (cfg : BasalReservoirConfig) (s e : List (ℕ × ℝ))
    (node : BasalReservoirNode) :
    0 ≤ (stepNode cfg s e node).energy ∧ (stepNode cfg s e node).energy ≤ 1 := by
  unfold stepNode
  rw [adapt_target_energy_energy, homeodynamic_learning_energy]
  exact update_energy_energy_mem _ _ _ _

theorem stepNode_target_window (cfg : BasalReservoirConfig) (s e : List (ℕ × ℝ))
    (node : BasalReservoirNode) (hrate : 0 ≤ cfg.adaptation_rate)
    (h1 : 0.2 ≤ node.target_energy) (h2 : node.target_energy ≤ 0.8) :
    0.2 ≤ (stepNode cfg s e node).target_energy ∧
      (stepNode cfg s e node).target_energy ≤ 0.8 := by
  unfold stepNode
  refine adapt_target_energy_window _ _ hrate ?_ ?_ <;>
    rw [homeodynamic_learning_target, update_energy_target] <;> assumption

theorem stepNode_weights (cfg : BasalReservoirConfig) (s e : List (ℕ × ℝ))
    (node : BasalReservoirNode) :
    ∀ kv ∈ (stepNode cfg s e node).incoming_weights,
      kv ∈ node.incoming_weights ∨ |kv.2| ≤ 2 := by
  unfold stepNode
  intro kv hkv
  rw [adapt_target_energy_weights] at hkv
  have := homeodynamic_learning_weights (node.update_energy cfg e (neighborStatesFor s node))
    cfg (neighborStatesFor s node) kv hkv
  rwa [update_energy_weights] at this

theorem update_reservoir_state_nodes (eng : BasalReservoirEngine)
    (ext : List (ℕ × ℝ)) :
    (eng.update_reservoir_state ext).1.nodes =
      eng.nodes.map (stepNode eng.config (activationSnapshot eng.nodes) ext) := by
  simp only [BasalReservoirEngine.update_reservoir_state]
  rw [updateNodesLoop_eq]
  simp

theorem update_reservoir_state_config (eng : BasalReservoirEngine)
    (ext : List (ℕ × ℝ)) :
    (eng.update_reservoir_state ext).1.config = eng.config := rfl

theorem runEngineSteps_config (eng : BasalReservoirEngine)
    (inps : List (List (ℕ × ℝ))) : (runEngineSteps eng inps).config = eng.config := by
  induction inps generalizing eng with
  | nil => rfl
  | cons ext rest ih => rw [runEngineSteps, ih, update_reservoir_state_config]

/-! ## Concrete fixtures for witnesses and counterexamples -/

/-- A small concrete configuration (all rates at their dataclass defaults,
two nodes). -/
def cfgC : BasalReservoirConfig where
  num_nodes := 2
  spatial_dimension := 2
  learning_rate := 0.01
  energy_decay := 0.95
  connection_radius := 0.3
  homeodynamic_strength := 0.1
  coherence_coupling := 0.05
  adaptation_rate := 0.001
  prediction_horizon := 10

/-- Node 0 of the fixture reservoir; its weight from node 1 was initialised
at 3, which the unclamped scaled-normal draw can produce. -/
noncomputable def nodeA : BasalReservoirNode :=
  ⟨0, 0.5, 0.5, 0, [(1, 3)], [], []⟩

/-- Node 1 of the fixture reservoir. -/
noncomputable def nodeB : BasalReservoirNode :=
  ⟨1, 0.5, 0.5, 0, [(0, 0.1)], [], []⟩

/-- A freshly initialised two-node engine. -/
noncomputable def engC : BasalReservoirEngine :=
  ⟨cfgC, [nodeA, nodeB], ⟨0.5, 0.5, 0.5, 0.5⟩, [], []⟩

/-! ## C9: the sequential per-node loop is equivalent to a synchronous update -/

/-- Modelled from the spec: the synchronous reference update, in which every
node's new state is a function of the pre-step activation snapshot alone, so
no node can observe an activation written during the same pass. -/
noncomputable def syncUpdateNodes (cfg : BasalReservoirConfig)
    (snapshot ext : List (ℕ × ℝ)) (nodes : List BasalReservoirNode) :
    List BasalReservoirNode :=
  nodes.map (stepNode cfg snapshot ext)

/-- C9: within one engine step every node's update reads only the snapshot of
activations taken before any node is updated, so the sequential write-back
loop of `update_reservoir_state` computes exactly the synchronous reference
update. -/
theorem sequential_update_equals_synchronous (eng : BasalReservoirEngine)
    (ext : List (ℕ × ℝ)) :
    (eng.update_reservoir_state ext).1.nodes =
      syncUpdateNodes eng.config (activationSnapshot eng.nodes) ext eng.nodes := by
  rw [update_reservoir_state_nodes]
  rfl

/-! ## C10: the target energy stays in [0.2, 0.8] -/

/-- C10: with a non-negative adaptation rate (every configuration the
repository constructs has a positive one), target energies drawn in
[0.4, 0.6] at construction stay within [0.2, 0.8] after any number of engine
steps: adaptation nudges are floored at 0.2 and capped at 0.8. -/
theorem target_energy_stays_in_window (eng : BasalReservoirEngine)
    (inps : List (List (ℕ × ℝ)))
    (hrate : 0 ≤ eng.config.adaptation_rate)
    (hinit : ∀ n ∈ eng.nodes, 0.4 ≤ n.target_energy ∧ n.target_energy ≤ 0.6) :
    ∀ n ∈ (runEngineSteps eng inps).nodes,
      0.2 ≤ n.target_energy ∧ n.target_energy ≤ 0.8 := by
  have main : ∀ (inps : List (List (ℕ × ℝ))) (e : BasalReservoirEngine),
      0 ≤ e.config.adaptation_rate →
      (∀ n ∈ e.nodes, 0.2 ≤ n.target_energy ∧ n.target_energy ≤ 0.8) →
      ∀ n ∈ (runEngineSteps e inps).nodes,
        0.2 ≤ n.target_energy ∧ n.target_energy ≤ 0.8 := by
    intro inps
    induction inps with
    | nil => intro e _ h n hn; exact h n hn
    | cons ext rest ih =>
      intro e hr h
      rw [runEngineSteps]
      refine ih _ ?_ ?_
      · rw [update_reservoir_state_config]; exact hr
      · rw [update_reservoir_state_nodes]
        intro n hn
        rw [List.mem_map] at hn
        obtain ⟨n0, hn0, rfl⟩ := hn
        exact stepNode_target_window _ _ _ _ hr (h n0 hn0).1 (h n0 hn0).2
  refine main inps eng hrate fun n hn => ?_
  obtain ⟨h1, h2⟩ := hinit n hn
  constructor <;> linarith

/-- Witness for C10 at a concrete two-node engine run for one step. -/
theorem target_energy_stays_in_window_witness :
    0 ≤ engC.config.adaptation_rate
    ∧ ∀ n ∈ (runEngineSteps engC [[]]).nodes,
        0.2 ≤ n.target_energy ∧ n.target_energy ≤ 0.8 := by
  refine ⟨by norm_num [engC, cfgC],
    target_energy_stays_in_window engC [[]] (by norm_num [engC, cfgC]) ?_⟩
  intro n hn
  simp only [engC, nodeA, nodeB, List.mem_cons, List.not_mem_nil, or_false] at hn
  rcases hn with rfl | rfl <;> norm_num

/-! ## C2: energy clamp and weight clamp -/

/-- Relation between a node's initial and evolved weight maps: every evolved
entry is either the untouched initial entry or a value the learning rule has
clamped into [-2, 2]. -/
def weightEvolved (n0 n1 : BasalReservoirNode) : Prop :=
  ∀ kv ∈ n1.incoming_weights, kv ∈ n0.incoming_weights ∨ |kv.2| ≤ 2

theorem weightEvolved_refl (n : BasalReservoirNode) : weightEvolved n n :=
  fun kv h => Or.inl h

theorem weightEvolved_trans {a b c : BasalReservoirNode}
    (h1 : weightEvolved a b) (h2 : weightEvolved b c) : weightEvolved a c := by
  intro kv hkv
  rcases h2 kv hkv with hb | hle
  · exact h1 kv hb
  · exact Or.inr hle

theorem forall₂_weightEvolved_trans :
    ∀ {a b c : List BasalReservoirNode}, List.Forall₂ weightEvolved a b →
      List.Forall₂ weightEvolved b c → List.Forall₂ weightEvolved a c := by
  intro a b c hab
  induction hab generalizing c with
  | nil => intro h; cases h; exact List.Forall₂.nil
  | cons h1 _ ih =>
    intro hbc
    cases hbc with
    | cons h2 htail => exact List.Forall₂.cons (weightEvolved_trans h1 h2) (ih htail)

theorem forall₂_weightEvolved_map_step (cfg : BasalReservoirConfig)
    (s e : List (ℕ × ℝ)) :
    ∀ l : List BasalReservoirNode,
      List.Forall₂ weightEvolved l (l.map (stepNode cfg s e)) := by
  intro l
  induction l with
  | nil => exact List.Forall₂.nil
  | cons n rest ih =>
    exact List.Forall₂.cons (stepNode_weights cfg s e n) ih

/-- C2 (amended): starting from initial energies in [0,1] (the uniform
[0.3,0.7] draw guarantees this), every node's energy stays in [0,1] after any
number of engine steps on any input sequence; and every incoming weight is
either the untouched initial weight or a value the homeodynamic rule has
clamped to magnitude at most 2.  Weights the learning rule skips (empty
neighbour snapshot, or total weighted input within 1e-6 of zero) keep their
previous value, so an initial weight of magnitude above 2 can persist. -/
theorem step_energy_clamped_and_weights_clamped_or_untouched
    (eng : BasalReservoirEngine) (inps : List (List (ℕ × ℝ)))
    (hE : ∀ n ∈ eng.nodes, 0 ≤ n.energy ∧ n.energy ≤ 1) :
    (∀ n ∈ (runEngineSteps eng inps).nodes, 0 ≤ n.energy ∧ n.energy ≤ 1)
    ∧ List.Forall₂ weightEvolved eng.nodes (runEngineSteps eng inps).nodes := by
  induction inps generalizing eng with
  | nil => exact ⟨hE, List.forall₂_same.mpr fun n _ => weightEvolved_refl n⟩
  | cons ext rest ih =>
    rw [runEngineSteps]
    have hstep : ((eng.update_reservoir_state ext).1).nodes =
        eng.nodes.map (stepNode eng.config (activationSnapshot eng.nodes) ext) :=
      update_reservoir_state_nodes eng ext
    have hE1 : ∀ n ∈ ((eng.update_reservoir_state ext).1).nodes,
        0 ≤ n.energy ∧ n.energy ≤ 1 := by
      rw [hstep]
      intro n hn
      rw [List.mem_map] at hn
      obtain ⟨n0, _, rfl⟩ := hn
      exact stepNode_energy_mem _ _ _ _
    obtain ⟨hEfin, hWfin⟩ := ih _ hE1
    refine ⟨hEfin, forall₂_weightEvolved_trans ?_ hWfin⟩
    rw [hstep]
    exact forall₂_weightEvolved_map_step _ _ _ _

/-- Witness for C2 at the concrete two-node engine run for one step. -/
theorem step_energy_clamped_witness :
    (∀ n ∈ (runEngineSteps engC [[]]).nodes, 0 ≤ n.energy ∧ n.energy ≤ 1)
    ∧ List.Forall₂ weightEvolved engC.nodes (runEngineSteps engC [[]]).nodes := by
  refine step_energy_clamped_and_weights_clamped_or_untouched engC [[]] ?_
  intro n hn
  simp only [engC, nodeA, nodeB, List.mem_cons, List.not_mem_nil, or_false] at hn
  rcases hn with rfl | rfl <;> norm_num

/-- C2 counterexample: in a two-node reservoir whose weight from node 1 to
node 0 was initialised at 3, one full engine step (zero external input, zero
initial activations) leaves that weight at 3, so weight magnitude does exceed
2 after a step: the learning rule skipped the update because the total
weighted input was below 1e-6. -/
theorem initial_weight_above_two_persists :
    ((runEngineSteps engC [[]]).nodes.map fun n => n.incoming_weights) =
      [[(1, 3)], [(0, 0.1)]]
    ∧ ¬ (∀ n ∈ (runEngineSteps engC [[]]).nodes, ∀ kv ∈ n.incoming_weights,
        |kv.2| ≤ 2) := by
  have hrun : runEngineSteps engC [[]] = (engC.update_reservoir_state []).1 := rfl
  have hmap : ((runEngineSteps engC [[]]).nodes.map fun n => n.incoming_weights) =
      [[(1, 3)], [(0, 0.1)]] := by
    rw [hrun, update_reservoir_state_nodes]
    norm_num [engC, nodeA, nodeB, cfgC, activationSnapshot, stepNode, neighborStatesFor,
      BasalReservoirNode.update_energy, BasalReservoirNode.homeodynamic_learning,
      BasalReservoirNode.adapt_target_energy, weightsGet, lastN, trimAfter,
      List.filter_cons, List.lookup]
  refine ⟨hmap, fun hall => ?_⟩
  cases hnl : (runEngineSteps engC [[]]).nodes with
  | nil => rw [hnl] at hmap; simp at hmap
  | cons n1 rest =>
    rw [hnl] at hmap hall
    simp only [List.map_cons] at hmap
    have hw : n1.incoming_weights = [(1, 3)] := (List.cons.injEq _ _ _ _ ▸ hmap).1
    have h3 := hall n1 (List.mem_cons_self _ _) (1, 3) (by rw [hw]; exact List.mem_singleton.mpr rfl)
    norm_num at h3

/-! ## C6: predict always returns exactly k values -/

theorem predictLoop_length (s : ℕ) :
    ∀ (eng : BasalReservoirEngine) (inp : List (ℕ × ℝ)),
      (predictLoop s eng inp).2.length = s := by
  induction s with
  | zero => intro eng inp; rfl
  | succ n ih =>
    intro eng inp
    rw [predictLoop]
    simp [ih]

/-- C6: for every series and every step count k, `predict_market_pattern`
returns exactly k values, and the all-zero vector when the series has fewer
than 10 samples.  The node-list hypothesis reflects that every engine the
constructor builds has `num_nodes > 0` nodes; on a node-less engine the
Python `np.average` inside the decode step would raise instead of returning. -/
theorem predict_market_pattern_length_and_zero (eng : BasalReservoirEngine)
    (market_data : List ℝ) (steps_ahead : ℕ) (hnodes : eng.nodes ≠ []) :
    (eng.predict_market_pattern market_data steps_ahead).2.length = steps_ahead
    ∧ (market_data.length < 10 →
      (eng.predict_market_pattern market_data steps_ahead).2 =
        List.replicate steps_ahead 0) := by
  unfold BasalReservoirEngine.predict_market_pattern
  by_cases h : market_data.length < 10
  · simp [h]
  · simp only [h, if_false]
    exact ⟨predictLoop_length _ _ _, fun hlt => hlt.elim⟩

/-- Witness for C6: a three-sample series and k = 4 on the concrete engine. -/
theorem predict_market_pattern_length_and_zero_witness :
    (engC.predict_market_pattern [1, 2, 3] 4).2 = List.replicate 4 0
    ∧ (engC.predict_market_pattern [1, 2, 3] 4).2.length = 4 := by
  have hnodes : engC.nodes ≠ [] := by simp [engC]
  have h := predict_market_pattern_length_and_zero engC [1, 2, 3] 4 hnodes
  exact ⟨h.2 (by norm_num), h.1⟩

/-! ## C5: the symbolic-frequency term -/

/-- C5 (amended): with fewer than 5 recorded coherence values the
symbolic-frequency term equals the engine's current `coherence_state.f`
(0.5 in a fresh engine, and never written anywhere else), not 0; with 5 or
more it is the first-maximum FFT frequency index of the last 20 recorded
values over indices 1 .. n/2 - 1, normalised by the window length, scaled by
5 and capped at 1. -/
theorem symbolic_frequency_cases (eng : BasalReservoirEngine) :
    (eng.coherence_history.length < 5 →
      eng.compute_symbolic_frequency = eng.coherence_state.f)
    ∧ (5 ≤ eng.coherence_history.length →
      eng.compute_symbolic_frequency =
        min 1 (((argmaxIdx (fftPower (lastN 20 eng.coherence_history))
          (List.range' 1 ((lastN 20 eng.coherence_history).length / 2 - 1)) : ℕ) : ℝ) /
          ((lastN 20 eng.coherence_history).length : ℝ) * 5)) := by
  constructor
  · intro h
    simp [BasalReservoirEngine.compute_symbolic_frequency, h]
  · intro h
    have h2 : ¬ (eng.coherence_history.length < 5) := by omega
    simp [BasalReservoirEngine.compute_symbolic_frequency, h2]

/-- Witness for C5 at the fresh concrete engine (empty coherence history). -/
theorem symbolic_frequency_cases_witness :
    engC.compute_symbolic_frequency = engC.coherence_state.f := by
  exact (symbolic_frequency_cases engC).1 (by simp [engC])

/-- C5 counterexample: a fresh engine has recorded no coherence values, yet
the symbolic-frequency term is 0.5 (the initial `coherence_state.f`), not the
0 the claim states. -/
theorem symbolic_frequency_fresh_engine_is_half :
    engC.coherence_history.length < 5
    ∧ engC.compute_symbolic_frequency = 0.5
    ∧ (0.5 : ℝ) ≠ 0 := by
  refine ⟨by simp [engC], ?_, by norm_num⟩
  simp [BasalReservoirEngine.compute_symbolic_frequency, engC]

/-! ## C3: the blend at integration strength 0 -/

/-- C3 (amended): with `integration_strength = 0` the blended vector equals
the traditional vector in all four components — the rho offset is scaled by
the integration strength and therefore vanishes too.  The [0,1] hypotheses
hold for every vector `_compute_traditional_gct` produces. -/
theorem blend_at_zero_strength_is_traditional (eng : BasalReservoirEngine)
    (t : GCTDimensions) (basal_coherence anticipation : ℝ)
    (hpsi1 : 0 ≤ t.psi) (hpsi2 : t.psi ≤ 1)
    (hrho1 : 0 ≤ t.rho) (hrho2 : t.rho ≤ 1)
    (hq1 : 0 ≤ t.q) (hq2 : t.q ≤ 1)
    (hf1 : 0 ≤ t.f) (hf2 : t.f ≤ 1) :
    (integrate_coherence_approaches 0 eng t basal_coherence anticipation).psi = t.psi
    ∧ (integrate_coherence_approaches 0 eng t basal_coherence anticipation).q = t.q
    ∧ (integrate_coherence_approaches 0 eng t basal_coherence anticipation).f = t.f
    ∧ (integrate_coherence_approaches 0 eng t basal_coherence anticipation).rho = t.rho := by
  simp only [integrate_coherence_approaches]
  refine ⟨?_, ?_, ?_, ?_⟩
  · rw [show (1 - (0:ℝ)) * t.psi + 0 * basal_coherence = t.psi from by ring]
    exact npClip_of_mem hpsi1 hpsi2
  · rw [show (1 - (0:ℝ)) * t.q + 0 * eng.get_reservoir_state.average_energy = t.q from by ring]
    exact npClip_of_mem hq1 hq2
  · rw [show (1 - (0:ℝ)) * t.f +
      0 * ((Real.tanh eng.get_reservoir_state.average_activation + 1) / 2) = t.f from by ring]
    exact npClip_of_mem hf1 hf2
  · rw [show t.rho + (0:ℝ) * npClip anticipation (-0.5) 0.5 = t.rho from by ring]
    exact npClip_of_mem hrho1 hrho2

/-- A concrete traditional vector used by the C3 witness and counterexample. -/
noncomputable def tC : GCTDimensions := ⟨0.5, 0.3, 0.5, 0.5⟩

/-- Witness for C3 at concrete inputs. -/
theorem blend_at_zero_strength_is_traditional_witness :
    (integrate_coherence_approaches 0 engC tC 0.7 0.4).psi = tC.psi
    ∧ (integrate_coherence_approaches 0 engC tC 0.7 0.4).q = tC.q
    ∧ (integrate_coherence_approaches 0 engC tC 0.7 0.4).f = tC.f
    ∧ (integrate_coherence_approaches 0 engC tC 0.7 0.4).rho = tC.rho := by
  exact blend_at_zero_strength_is_traditional engC tC 0.7 0.4
    (by norm_num [tC]) (by norm_num [tC]) (by norm_num [tC]) (by norm_num [tC])
    (by norm_num [tC]) (by norm_num [tC]) (by norm_num [tC]) (by norm_num [tC])

/-- C3 counterexample: at integration strength 0 the enhanced rho is NOT
offset from the traditional rho by the anticipation term — with traditional
rho 0.3 and anticipation 0.4 the blend returns 0.3, not 0.3 + 0.4. -/
theorem blend_at_zero_strength_rho_not_offset :
    (integrate_coherence_approaches 0 engC tC 0.7 0.4).rho ≠
      tC.rho + npClip 0.4 (-0.5) 0.5 := by
  have h1 : (integrate_coherence_approaches 0 engC tC 0.7 0.4).rho = 0.3 := by
    simp only [integrate_coherence_approaches, tC]
    rw [show (0.3 : ℝ) + 0 * npClip 0.4 (-0.5) 0.5 = 0.3 from by ring]
    exact npClip_of_mem (by norm_num) (by norm_num)
  have h2 : tC.rho + npClip 0.4 (-0.5) 0.5 = 0.7 := by
    rw [npClip_of_mem (by norm_num) (by norm_num)]
    norm_num [tC]
  rw [h1, h2]
  norm_num

/-! ## C4: constructing the integrator without a config -/

/-- The declared fields of the `BasalReservoirConfig` dataclass. -/
def basalReservoirConfigFields : List String :=
  ["num_nodes", "spatial_dimension", "learning_rate", "energy_decay",
   "connection_radius", "homeodynamic_strength", "coherence_coupling",
   "adaptation_rate", "prediction_horizon"]

/-- The keyword names `GCTBasalIntegrator.__init__` passes to
`BasalReservoirConfig` when `reservoir_config` is None. -/
def integratorDefaultConfigKwargs : List String :=
  ["num_nodes", "learning_rate", "soulmath_coupling", "adaptation_rate"]

/-- The unrecognised keyword. -/
def soulmathKey : String := "soulmath_coupling"

/-- The field the engine actually reads (`config.coherence_coupling`). -/
def coherenceKey : String := "coherence_coupling"

/-- Python dataclass constructor-call semantics: a call whose keyword set is
not contained in the declared field set raises TypeError (modelled as
`error`); otherwise construction succeeds. -/
def dataclassCallAccepts (fields kwargs : List String) : Except Unit Unit :=
  if kwargs.all fun k => fields.contains k then .ok () else .error ()

/-- The config construction attempted by `GCTBasalIntegrator.__init__` when no
reservoir config is supplied. -/
def integratorInitDefaultConfig : Except Unit Unit :=
  dataclassCallAccepts basalReservoirConfigFields integratorDefaultConfigKwargs

/-- C4 counterexample: the no-config construction path does not succeed — the
keyword check rejects the call, i.e. Python raises TypeError. -/
theorem default_integrator_construction_not_ok :
    integratorInitDefaultConfig = Except.error () := by rfl

/-- C4 (amended): constructing the integrator without an explicit config
raises TypeError, because the default path passes the keyword
`soulmath_coupling`, which is not a field of `BasalReservoirConfig` (the
corresponding field is `coherence_coupling`); the dataclass defaults are as
the spec lists them, but the no-config path never produces a config at all. -/
theorem default_integrator_construction_raises :
    integratorInitDefaultConfig = Except.error ()
    ∧ basalReservoirConfigFields.contains soulmathKey = false
    ∧ basalReservoirConfigFields.contains coherenceKey = true
    ∧ integratorDefaultConfigKwargs.contains soulmathKey = true
    ∧ BasalReservoirConfig.default.num_nodes = 100
    ∧ BasalReservoirConfig.default.learning_rate = 0.01
    ∧ BasalReservoirConfig.default.energy_decay = 0.95
    ∧ BasalReservoirConfig.default.connection_radius = 0.3
    ∧ BasalReservoirConfig.default.coherence_coupling = 0.05
    ∧ BasalReservoirConfig.default.adaptation_rate = 0.001
    ∧ BasalReservoirConfig.default.prediction_horizon = 10 := by
  refine ⟨rfl, rfl, rfl, rfl, rfl, ?_, ?_, ?_, ?_, ?_, rfl⟩ <;>
    norm_num [BasalReservoirConfig.default]

/-! ## C1: every returned value is in the unit interval -/

/-- Membership in [0,1]. -/
def inUnit (x : ℝ) : Prop := 0 ≤ x ∧ x ≤ 1

/-- The boundedness contract of one result: all four components of both
coherence vectors, the prediction confidence, the symbolic resonance and the
adaptation efficiency lie in [0,1] (the anticipation capacity is exempt). -/
def resultValuesBounded (r : EnhancedCoherenceResult) : Prop :=
  inUnit r.traditional_gct.psi ∧ inUnit r.traditional_gct.rho
  ∧ inUnit r.traditional_gct.q ∧ inUnit r.traditional_gct.f
  ∧ inUnit r.basal_enhanced_gct.psi ∧ inUnit r.basal_enhanced_gct.rho
  ∧ inUnit r.basal_enhanced_gct.q ∧ inUnit r.basal_enhanced_gct.f
  ∧ inUnit r.prediction_confidence ∧ inUnit r.symbolic_resonance
  ∧ inUnit r.adaptation_efficiency

theorem inUnit_npClip01 (x : ℝ) : inUnit (npClip x 0 1) := npClip_mem01 x

theorem inUnit_half : inUnit (0.5 : ℝ) := by constructor <;> norm_num

theorem inUnit_tanh_mapped (x : ℝ) : inUnit ((Real.tanh x + 1) / 2) := by
  obtain ⟨h1, h2⟩ := tanh_mem_Icc x
  constructor <;> [linarith; linarith]

theorem compute_traditional_gct_bounds (hist : List MarketDataPoint)
    (d : MarketDataPoint) (g : GCTDimensions)
    (h : compute_traditional_gct hist d = Except.ok g) :
    inUnit g.psi ∧ inUnit g.rho ∧ inUnit g.q ∧ inUnit g.f := by
  simp only [compute_traditional_gct] at h
  repeat' split at h
  all_goals first
    | exact Except.noConfusion h
    | (rw [Except.ok.injEq] at h; subst h;
       refine ⟨?_, ?_, ?_, ?_⟩ <;> first | exact inUnit_half | exact inUnit_npClip01 _)

theorem compute_symbolic_resonance_bounds (hist : List MarketDataPoint)
    (eng : BasalReservoirEngine) (d : MarketDataPoint) (x : ℝ)
    (h : compute_symbolic_resonance hist eng d = Except.ok x) : inUnit x := by
  simp only [compute_symbolic_resonance] at h
  repeat' split at h
  all_goals first
    | exact Except.noConfusion h
    | (rw [Except.ok.injEq] at h; subst h;
       first
        | exact inUnit_tanh_mapped _
        | (constructor <;> norm_num))

theorem integrate_coherence_approaches_bounds (alpha : ℝ)
    (eng : BasalReservoirEngine) (t : GCTDimensions) (bc ant : ℝ) :
    inUnit (integrate_coherence_approaches alpha eng t bc ant).psi
    ∧ inUnit (integrate_coherence_approaches alpha eng t bc ant).rho
    ∧ inUnit (integrate_coherence_approaches alpha eng t bc ant).q
    ∧ inUnit (integrate_coherence_approaches alpha eng t bc ant).f :=
  ⟨inUnit_npClip01 _, inUnit_npClip01 _,
    inUnit_npClip01 _, inUnit_npClip01 _⟩

theorem compute_prediction_confidence_bounds (eng : BasalReservoirEngine)
    (md : List ℝ) : inUnit (compute_prediction_confidence eng md).2 :=
  inUnit_npClip01 _

theorem compute_adaptation_efficiency_bounds
    (rs : List EnhancedCoherenceResult) :
    inUnit (compute_adaptation_efficiency rs) := by
  simp only [compute_adaptation_efficiency]
  repeat' split
  all_goals first | exact inUnit_half | exact inUnit_tanh_mapped _

theorem create_fallback_result_bounded (now : ℝ) :
    resultValuesBounded (create_fallback_result now) := by
  unfold resultValuesBounded create_fallback_result
  norm_num [inUnit]

/-- Whether an `Except` value is an error (a raise, in Python terms). -/
def exceptIsError : Except α β → Bool
  | .error _ => true
  | .ok _ => false

theorem finishWrap_ok (i2 : GCTBasalIntegrator) (r : EnhancedCoherenceResult)
    (u : Except Unit GCTBasalIntegrator)
    (pr : GCTBasalIntegrator × EnhancedCoherenceResult)
    (h : finishWrap i2 r u = Except.ok pr) : pr.2 = r := by
  cases u with
  | error e => exact Except.noConfusion h
  | ok j =>
    rw [finishWrap, Except.ok.injEq] at h
    subst h
    rfl

theorem processFinish_ok_props (now : ℝ) (i1 : GCTBasalIntegrator) (ep : Bool)
    (ma : List ℝ) (t : GCTDimensions) (bc ant res : ℝ) (e3 : BasalReservoirEngine)
    (pr : GCTBasalIntegrator × EnhancedCoherenceResult)
    (hT : inUnit t.psi ∧ inUnit t.rho ∧ inUnit t.q ∧ inUnit t.f)
    (hres : inUnit res)
    (h : processFinish now i1 ep ma t bc ant res e3 = Except.ok pr) :
    pr.2.timestamp = now ∧ resultValuesBounded pr.2 := by
  simp only [processFinish] at h
  rw [finishWrap_ok _ _ _ _ h]
  refine ⟨rfl, hT.1, hT.2.1, hT.2.2.1, hT.2.2.2,
      (integrate_coherence_approaches_bounds _ _ _ _ _).1,
      (integrate_coherence_approaches_bounds _ _ _ _ _).2.1,
      (integrate_coherence_approaches_bounds _ _ _ _ _).2.2.1,
      (integrate_coherence_approaches_bounds _ _ _ _ _).2.2.2,
      ?_, hres, compute_adaptation_efficiency_bounds _⟩
  cases ep with
  | true => exact compute_prediction_confidence_bounds _ _
  | false => exact ⟨le_refl 0, zero_le_one⟩

theorem resonanceCont_ok_props (now : ℝ) (i1 : GCTBasalIntegrator) (ep : Bool)
    (ma : List ℝ) (t : GCTDimensions) (bc ant : ℝ) (e3 : BasalReservoirEngine)
    (u : Except Unit ℝ) (pr : GCTBasalIntegrator × EnhancedCoherenceResult)
    (hT : inUnit t.psi ∧ inUnit t.rho ∧ inUnit t.q ∧ inUnit t.f)
    (hu : ∀ r, u = Except.ok r → inUnit r)
    (h : resonanceCont now i1 ep ma t bc ant e3 u = Except.ok pr) :
    pr.2.timestamp = now ∧ resultValuesBounded pr.2 := by
  cases u with
  | error x => exact Except.noConfusion h
  | ok res =>
    rw [resonanceCont] at h
    exact processFinish_ok_props _ _ _ _ _ _ _ _ _ _ hT (hu res rfl) h

theorem processWithSignals_ok_props (now : ℝ) (i1 : GCTBasalIntegrator)
    (d : MarketDataPoint) (ep : Bool) (t : GCTDimensions)
    (reservoir_inputs : List (ℕ × ℝ)) (pr : GCTBasalIntegrator × EnhancedCoherenceResult)
    (hT : inUnit t.psi ∧ inUnit t.rho ∧ inUnit t.q ∧ inUnit t.f)
    (h : processWithSignals now i1 d ep t reservoir_inputs = Except.ok pr) :
    pr.2.timestamp = now ∧ resultValuesBounded pr.2 := by
  simp only [processWithSignals] at h
  exact resonanceCont_ok_props _ _ _ _ _ _ _ _ _ _ hT
    (fun r hr => compute_symbolic_resonance_bounds _ _ _ _ hr) h

theorem encodeCont_ok_props (now : ℝ) (i1 : GCTBasalIntegrator)
    (d : MarketDataPoint) (ep : Bool) (t : GCTDimensions)
    (u : Except Unit (List (ℕ × ℝ)))
    (pr : GCTBasalIntegrator × EnhancedCoherenceResult)
    (hT : inUnit t.psi ∧ inUnit t.rho ∧ inUnit t.q ∧ inUnit t.f)
    (h : encodeCont now i1 d ep t u = Except.ok pr) :
    pr.2.timestamp = now ∧ resultValuesBounded pr.2 := by
  cases u with
  | error x => exact Except.noConfusion h
  | ok inputs =>
    rw [encodeCont] at h
    exact processWithSignals_ok_props _ _ _ _ _ _ _ hT h

theorem traditionalCont_ok_props (now : ℝ) (i1 : GCTBasalIntegrator)
    (d : MarketDataPoint) (ep : Bool) (u : Except Unit GCTDimensions)
    (pr : GCTBasalIntegrator × EnhancedCoherenceResult)
    (hu : ∀ t, u = Except.ok t → inUnit t.psi ∧ inUnit t.rho ∧ inUnit t.q ∧ inUnit t.f)
    (h : traditionalCont now i1 d ep u = Except.ok pr) :
    pr.2.timestamp = now ∧ resultValuesBounded pr.2 := by
  cases u with
  | error x => exact Except.noConfusion h
  | ok t =>
    rw [traditionalCont] at h
    exact encodeCont_ok_props _ _ _ _ _ _ _ (hu t rfl) h

theorem tryProcess_ok_props (now : ℝ) (intg : GCTBasalIntegrator) (d : MarketDataPoint)
    (ep : Bool) (pr : GCTBasalIntegrator × EnhancedCoherenceResult)
    (h : tryProcessMarketData now intg d ep = Except.ok pr) :
    pr.2.timestamp = now ∧ resultValuesBounded pr.2 := by
  unfold tryProcessMarketData at h
  simp only [] at h
  exact traditionalCont_ok_props _ _ _ _ _ _
    (fun t ht => compute_traditional_gct_bounds _ _ _ ht) h

/-- C1: every result the integrator returns — through the normal path or the
fallback path — has all four components of both coherence vectors, the
prediction confidence, the symbolic resonance and the adaptation efficiency
in [0,1], for every state, data point and prediction flag. -/
theorem process_result_values_bounded (now : ℝ) (intg : GCTBasalIntegrator)
    (d : MarketDataPoint) (ep : Bool) :
    resultValuesBounded (process_market_data_stream now intg d ep).2 := by
  unfold process_market_data_stream
  cases htry : tryProcessMarketData now intg d ep with
  | error i1 => exact create_fallback_result_bounded now
  | ok pr => exact (tryProcess_ok_props now intg d ep pr htry).2

/-- Wall-clock reading becomes the result's timestamp on both paths. -/
theorem process_timestamp (now : ℝ) (intg : GCTBasalIntegrator)
    (d : MarketDataPoint) (ep : Bool) :
    (process_market_data_stream now intg d ep).2.timestamp = now := by
  unfold process_market_data_stream
  cases htry : tryProcessMarketData now intg d ep with
  | error i1 => rfl
  | ok pr => exact (tryProcess_ok_props now intg d ep pr htry).1

/-! ## C7: exceptions never propagate, the fallback is neutral -/

/-- C7: whenever the try body of `process_market_data_stream` raises, the
returned result is the neutral fallback: both coherence vectors all 0.5, and
anticipation, prediction confidence, symbolic resonance and adaptation
efficiency all 0. -/
theorem process_error_returns_neutral_fallback (now : ℝ)
    (intg : GCTBasalIntegrator) (d : MarketDataPoint) (ep : Bool)
    (h : exceptIsError (tryProcessMarketData now intg d ep) = true) :
    (process_market_data_stream now intg d ep).2.traditional_gct = ⟨0.5, 0.5, 0.5, 0.5⟩
    ∧ (process_market_data_stream now intg d ep).2.basal_enhanced_gct = ⟨0.5, 0.5, 0.5, 0.5⟩
    ∧ (process_market_data_stream now intg d ep).2.anticipation_capacity = 0
    ∧ (process_market_data_stream now intg d ep).2.prediction_confidence = 0
    ∧ (process_market_data_stream now intg d ep).2.symbolic_resonance = 0
    ∧ (process_market_data_stream now intg d ep).2.adaptation_efficiency = 0 := by
  unfold process_market_data_stream
  cases htry : tryProcessMarketData now intg d ep with
  | error i1 => exact ⟨rfl, rfl, rfl, rfl, rfl, rfl⟩
  | ok pr => rw [htry] at h; exact Bool.noConfusion h

/-! ## C8: determinism of replay, up to wall-clock timestamps -/

/-- Every field of a result except its creation timestamp. -/
def resultCore (r : EnhancedCoherenceResult) :
    GCTDimensions × GCTDimensions × ℝ × ℝ × ℝ × ℝ × Option ReservoirStateSnapshot :=
  (r.traditional_gct, r.basal_enhanced_gct, r.anticipation_capacity,
    r.prediction_confidence, r.symbolic_resonance, r.adaptation_efficiency,
    r.reservoir_state)

/-- Two integrator states agree on everything except possibly the timestamps
recorded inside the logged results. -/
def integratorCoreEq (a b : GCTBasalIntegrator) : Prop :=
  a.basal_engine = b.basal_engine
  ∧ a.integration_strength = b.integration_strength
  ∧ a.market_history = b.market_history
  ∧ a.coherence_results.map resultCore = b.coherence_results.map resultCore
  ∧ a.prediction_accuracy_tracker = b.prediction_accuracy_tracker
  ∧ a.coherence_stability_tracker = b.coherence_stability_tracker

theorem integratorCoreEq_refl (a : GCTBasalIntegrator) : integratorCoreEq a a :=
  ⟨rfl, rfl, rfl, rfl, rfl, rfl⟩

theorem lastN_map (f : α → β) (n : ℕ) (l : List α) :
    (lastN n l).map f = lastN n (l.map f) := by
  simp [lastN, List.map_drop, List.length_map]

theorem map_trimAfter (f : α → β) (cap : ℕ) (l : List α) :
    (trimAfter cap l).map f = trimAfter cap (l.map f) := by
  simp only [trimAfter, List.length_map]
  split
  · exact List.map_tail f l
  · rfl

/-- Adaptation efficiency reads only timestamp-free result data. -/
theorem adaptEff_congr (rs1 rs2 : List EnhancedCoherenceResult)
    (h : rs1.map resultCore = rs2.map resultCore) :
    compute_adaptation_efficiency rs1 = compute_adaptation_efficiency rs2 := by
  have hlen : rs1.length = rs2.length := by
    have := congrArg List.length h
    simpa using this
  have hpsi : rs1.map (fun r => r.basal_enhanced_gct.psi) =
      rs2.map (fun r => r.basal_enhanced_gct.psi) := by
    have := congrArg (List.map fun c :
      GCTDimensions × GCTDimensions × ℝ × ℝ × ℝ × ℝ × Option ReservoirStateSnapshot =>
      c.2.1.psi) h
    simpa [List.map_map, Function.comp, resultCore] using this
  unfold compute_adaptation_efficiency
  rw [show (lastN 10 rs1).map (fun r => r.basal_enhanced_gct.psi) =
      (lastN 10 rs2).map (fun r => r.basal_enhanced_gct.psi) from by
    rw [lastN_map, lastN_map, hpsi]]
  rw [show ((lastN 20 rs1).take 10).map (fun r => r.basal_enhanced_gct.psi) =
      ((lastN 20 rs2).take 10).map (fun r => r.basal_enhanced_gct.psi) from by
    rw [List.map_take, List.map_take, lastN_map, lastN_map, hpsi]]
  rw [hlen]

/-- Relation between the two runs' per-point outcomes: raises match with
core-equal states, normal returns match with core-equal states and core-equal
results. -/
def outcomeRel :
    Except GCTBasalIntegrator (GCTBasalIntegrator × EnhancedCoherenceResult) →
    Except GCTBasalIntegrator (GCTBasalIntegrator × EnhancedCoherenceResult) → Prop
  | .error a, .error b => integratorCoreEq a b
  | .ok pa, .ok pb => integratorCoreEq pa.1 pb.1 ∧ resultCore pa.2 = resultCore pb.2
  | _, _ => False

/-- Outcome relation for the metric update (error payloads are units). -/
def outcomeRelU : Except Unit GCTBasalIntegrator → Except Unit GCTBasalIntegrator → Prop
  | .error _, .error _ => True
  | .ok a, .ok b => integratorCoreEq a b
  | _, _ => False

theorem upm_congr_fields (e : BasalReservoirEngine) (s : ℝ)
    (hml : List MarketDataPoint) (r1 r2 : List EnhancedCoherenceResult)
    (p c : List ℝ) (ra rb : EnhancedCoherenceResult)
    (hr : resultCore ra = resultCore rb)
    (hR : r1.map resultCore = r2.map resultCore) :
    outcomeRelU (update_performance_metrics ⟨e, s, hml, r1, p, c⟩ ra)
      (update_performance_metrics ⟨e, s, hml, r2, p, c⟩ rb) := by
  have hrA : ra.anticipation_capacity = rb.anticipation_capacity :=
    congrArg (fun x :
      GCTDimensions × GCTDimensions × ℝ × ℝ × ℝ × ℝ × Option ReservoirStateSnapshot =>
      x.2.2.1) hr
  have hrE : ra.basal_enhanced_gct = rb.basal_enhanced_gct :=
    congrArg (fun x :
      GCTDimensions × GCTDimensions × ℝ × ℝ × ℝ × ℝ × Option ReservoirStateSnapshot =>
      x.2.1) hr
  unfold update_performance_metrics
  simp only [hrA, hrE]
  by_cases h2 : 2 ≤ hml.length
  · simp only [if_pos h2]
    by_cases hz : (hml.getD (hml.length - 2) ⟨0, "", 0, 0, none, none⟩).price = 0
    · simp only [if_pos hz]
      trivial
    · simp only [if_neg hz]
      exact ⟨rfl, rfl, rfl, hR, rfl, rfl⟩
  · simp only [if_neg h2]
    exact ⟨rfl, rfl, rfl, hR, rfl, rfl⟩

theorem outcomeRelU_lift (u1 u2 : Except Unit GCTBasalIntegrator)
    (h : outcomeRelU u1 u2) (i2a i2b : GCTBasalIntegrator)
    (hI : integratorCoreEq i2a i2b) (ra rb : EnhancedCoherenceResult)
    (hr : resultCore ra = resultCore rb) :
    outcomeRel (finishWrap i2a ra u1) (finishWrap i2b rb u2) := by
  cases u1 with
  | error u =>
    cases u2 with
    | error v => exact hI
    | ok j => exact h.elim
  | ok j1 =>
    cases u2 with
    | error v => exact h.elim
    | ok j2 => exact ⟨h, hr⟩

theorem processFinish_congr (e : BasalReservoirEngine) (s : ℝ)
    (hml : List MarketDataPoint) (r1 r2 : List EnhancedCoherenceResult)
    (p c : List ℝ) (hR : r1.map resultCore = r2.map resultCore)
    (ta tb : ℝ) (ep : Bool) (ma : List ℝ) (t : GCTDimensions)
    (bc ant res : ℝ) (e3 : BasalReservoirEngine) :
    outcomeRel (processFinish ta ⟨e, s, hml, r1, p, c⟩ ep ma t bc ant res e3)
      (processFinish tb ⟨e, s, hml, r2, p, c⟩ ep ma t bc ant res e3) := by
  unfold processFinish
  simp only [adaptEff_congr r1 r2 hR]
  have hrc : ∀ x y : ℝ,
      resultCore ⟨t, integrate_coherence_approaches s e3 t bc ant, ant,
        (if ep then compute_prediction_confidence e3 ma else (e3, 0)).2, res,
        compute_adaptation_efficiency r2,
        some (if ep then compute_prediction_confidence e3 ma else (e3, 0)).1.get_reservoir_state,
        x⟩ =
      resultCore ⟨t, integrate_coherence_approaches s e3 t bc ant, ant,
        (if ep then compute_prediction_confidence e3 ma else (e3, 0)).2, res,
        compute_adaptation_efficiency r2,
        some (if ep then compute_prediction_confidence e3 ma else (e3, 0)).1.get_reservoir_state,
        y⟩ := fun x y => rfl
  have hR2 : ∀ ra rb : EnhancedCoherenceResult, resultCore ra = resultCore rb →
      (trimAfter 500 (r1 ++ [ra])).map resultCore =
        (trimAfter 500 (r2 ++ [rb])).map resultCore := by
    intro ra rb hab
    rw [map_trimAfter, map_trimAfter, List.map_append, List.map_append, hR]
    simp [hab]
  refine outcomeRelU_lift _ _ ?_ _ _ ?_ _ _ ?_
  · exact upm_congr_fields _ _ _ _ _ _ _ _ _ (hrc ta tb) (hR2 _ _ (hrc ta tb))
  · exact ⟨rfl, rfl, rfl, hR2 _ _ (hrc ta tb), rfl, rfl⟩
  · exact hrc ta tb

theorem resonanceCont_congr (e : BasalReservoirEngine) (s : ℝ)
    (hml : List MarketDataPoint) (r1 r2 : List EnhancedCoherenceResult)
    (p c : List ℝ) (hR : r1.map resultCore = r2.map resultCore)
    (ta tb : ℝ) (ep : Bool) (ma : List ℝ) (t : GCTDimensions)
    (bc ant : ℝ) (e3 : BasalReservoirEngine) (u : Except Unit ℝ) :
    outcomeRel (resonanceCont ta ⟨e, s, hml, r1, p, c⟩ ep ma t bc ant e3 u)
      (resonanceCont tb ⟨e, s, hml, r2, p, c⟩ ep ma t bc ant e3 u) := by
  cases u with
  | error x => exact ⟨rfl, rfl, rfl, hR, rfl, rfl⟩
  | ok res => exact processFinish_congr e s hml r1 r2 p c hR ta tb ep ma t bc ant res e3

theorem processWithSignals_congr (e : BasalReservoirEngine) (s : ℝ)
    (hml : List MarketDataPoint) (r1 r2 : List EnhancedCoherenceResult)
    (p c : List ℝ) (hR : r1.map resultCore = r2.map resultCore)
    (ta tb : ℝ) (d : MarketDataPoint) (ep : Bool) (t : GCTDimensions)
    (inputs : List (ℕ × ℝ)) :
    outcomeRel (processWithSignals ta ⟨e, s, hml, r1, p, c⟩ d ep t inputs)
      (processWithSignals tb ⟨e, s, hml, r2, p, c⟩ d ep t inputs) := by
  simp only [processWithSignals]
  exact resonanceCont_congr e s hml r1 r2 p c hR ta tb ep _ t _ _ _ _

theorem encodeCont_congr (e : BasalReservoirEngine) (s : ℝ)
    (hml : List MarketDataPoint) (r1 r2 : List EnhancedCoherenceResult)
    (p c : List ℝ) (hR : r1.map resultCore = r2.map resultCore)
    (ta tb : ℝ) (d : MarketDataPoint) (ep : Bool) (t : GCTDimensions)
    (u : Except Unit (List (ℕ × ℝ))) :
    outcomeRel (encodeCont ta ⟨e, s, hml, r1, p, c⟩ d ep t u)
      (encodeCont tb ⟨e, s, hml, r2, p, c⟩ d ep t u) := by
  cases u with
  | error x => exact ⟨rfl, rfl, rfl, hR, rfl, rfl⟩
  | ok inputs => exact processWithSignals_congr e s hml r1 r2 p c hR ta tb d ep t inputs

theorem traditionalCont_congr (e : BasalReservoirEngine) (s : ℝ)
    (hml : List MarketDataPoint) (r1 r2 : List EnhancedCoherenceResult)
    (p c : List ℝ) (hR : r1.map resultCore = r2.map resultCore)
    (ta tb : ℝ) (d : MarketDataPoint) (ep : Bool) (u : Except Unit GCTDimensions) :
    outcomeRel (traditionalCont ta ⟨e, s, hml, r1, p, c⟩ d ep u)
      (traditionalCont tb ⟨e, s, hml, r2, p, c⟩ d ep u) := by
  cases u with
  | error x => exact ⟨rfl, rfl, rfl, hR, rfl, rfl⟩
  | ok t => exact encodeCont_congr e s hml r1 r2 p c hR ta tb d ep t _

theorem tryProcess_congr (a b : GCTBasalIntegrator) (hEq : integratorCoreEq a b)
    (ta tb : ℝ) (d : MarketDataPoint) (ep : Bool) :
    outcomeRel (tryProcessMarketData ta a d ep) (tryProcessMarketData tb b d ep) := by
  obtain ⟨hE, hS, hH, hR, hP, hC⟩ := hEq
  cases a with
  | mk ea sa ha ra pa ca =>
    cases b with
    | mk eb sb hb rb pb cb =>
      replace hE : ea = eb := hE
      replace hS : sa = sb := hS
      replace hH : ha = hb := hH
      replace hP : pa = pb := hP
      replace hC : ca = cb := hC
      subst hE
      subst hS
      subst hH
      subst hP
      subst hC
      replace hR : ra.map resultCore = rb.map resultCore := hR
      unfold tryProcessMarketData
      exact traditionalCont_congr ea sa (trimAfter 1000 (ha ++ [d])) ra rb pa ca
        hR ta tb d ep _

theorem process_core_congr (a b : GCTBasalIntegrator) (hEq : integratorCoreEq a b)
    (ta tb : ℝ) (d : MarketDataPoint) (ep : Bool) :
    integratorCoreEq (process_market_data_stream ta a d ep).1
      (process_market_data_stream tb b d ep).1
    ∧ resultCore (process_market_data_stream ta a d ep).2 =
      resultCore (process_market_data_stream tb b d ep).2 := by
  have h := tryProcess_congr a b hEq ta tb d ep
  unfold process_market_data_stream
  revert h
  cases h1 : tryProcessMarketData ta a d ep with
  | error i1 =>
    cases h2 : tryProcessMarketData tb b d ep with
    | error i2 => intro h; exact ⟨h, rfl⟩
    | ok prb => intro h; exact h.elim
  | ok pra =>
    cases h2 : tryProcessMarketData tb b d ep with
    | error i2 => intro h; exact h.elim
    | ok prb => intro h; exact ⟨h.1, h.2⟩

theorem runStream_congr (ds : List MarketDataPoint) :
    ∀ (a b : GCTBasalIntegrator), integratorCoreEq a b →
    ∀ (ts1 ts2 : List ℝ), ts1.length = ds.length → ts2.length = ds.length →
      integratorCoreEq (runStream a (ts1.zip ds)).1 (runStream b (ts2.zip ds)).1
      ∧ ((runStream a (ts1.zip ds)).2).map resultCore =
        ((runStream b (ts2.zip ds)).2).map resultCore := by
  induction ds with
  | nil =>
    intro a b hEq ts1 ts2 h1 h2
    simp only [List.zip_nil_right, runStream]
    exact ⟨hEq, trivial⟩
  | cons d rest ih =>
    intro a b hEq ts1 ts2 h1 h2
    cases ts1 with
    | nil => simp at h1
    | cons t1 ts1x =>
      cases ts2 with
      | nil => simp at h2
      | cons t2 ts2x =>
        simp only [List.zip_cons_cons, runStream]
        have hp := process_core_congr a b hEq t1 t2 d true
        have hrest := ih _ _ hp.1 ts1x ts2x (by simpa using h1) (by simpa using h2)
        simp only [List.zip] at hrest
        refine ⟨hrest.1, ?_⟩
        simp only [List.map_cons]
        rw [hp.2, hrest.2]

/-- C8 (amended): replaying an identical ordered data-point sequence into two
freshly constructed integrators with the same seeded topology produces result
sequences that are identical in every field except the creation timestamp
(which records the wall clock at each call and so differs between the runs).
`ts1`, `ts2` are the wall-clock readings of the two runs. -/
theorem replay_results_agree_up_to_timestamp (i0 : GCTBasalIntegrator)
    (ds : List MarketDataPoint) (ts1 ts2 : List ℝ)
    (h1 : ts1.length = ds.length) (h2 : ts2.length = ds.length) :
    ((runStream i0 (ts1.zip ds)).2).map resultCore =
      ((runStream i0 (ts2.zip ds)).2).map resultCore :=
  (runStream_congr ds i0 i0 (integratorCoreEq_refl i0) ts1 ts2 h1 h2).2

/-- A concrete market data point for the replay fixtures. -/
noncomputable def dW : MarketDataPoint := ⟨0, "AAA", 1, 1, none, none⟩

/-- A freshly constructed fixture integrator over the two-node engine. -/
noncomputable def intgC : GCTBasalIntegrator := ⟨engC, 0.3, [], [], [], []⟩

/-- Witness for C8 at a concrete one-point replay with different clocks. -/
theorem replay_results_agree_up_to_timestamp_witness :
    ((runStream intgC ([(0 : ℝ)].zip [dW])).2).map resultCore =
      ((runStream intgC ([(1 : ℝ)].zip [dW])).2).map resultCore :=
  replay_results_agree_up_to_timestamp intgC [dW] [0] [1] (by simp) (by simp)

/-- C8 counterexample: the result sequences of the two replays are not
literally identical — the runs happen at different wall-clock instants and
each result records its creation time in its `timestamp` field. -/
theorem replay_results_differ_in_timestamp :
    (runStream intgC [((0 : ℝ), dW)]).2 ≠ (runStream intgC [((1 : ℝ), dW)]).2 := by
  intro hEq
  have e0 : (runStream intgC [((0 : ℝ), dW)]).2 =
      [(process_market_data_stream 0 intgC dW true).2] := rfl
  have e1 : (runStream intgC [((1 : ℝ), dW)]).2 =
      [(process_market_data_stream 1 intgC dW true).2] := rfl
  rw [e0, e1, List.cons.injEq] at hEq
  have ht := congrArg EnhancedCoherenceResult.timestamp hEq.1
  rw [process_timestamp, process_timestamp] at ht
  norm_num at ht

/-- A data point with price 0, which makes the later price-change division
raise. -/
noncomputable def dpZero : MarketDataPoint := ⟨0, "AAA", 0, 1, none, none⟩

/-- Fixture integrator whose previous data point has price 0: processing the
next point raises ZeroDivisionError inside `_encode_market_signals`. -/
noncomputable def intgErr : GCTBasalIntegrator := ⟨engC, 0.3, [dpZero], [], [], []⟩

/-- Witness for C7: at this concrete state the try body raises (division by
the previous price 0) and the returned result is the neutral fallback. -/
theorem process_error_returns_neutral_fallback_witness :
    (process_market_data_stream 7 intgErr dW true).2.traditional_gct = ⟨0.5, 0.5, 0.5, 0.5⟩
    ∧ (process_market_data_stream 7 intgErr dW true).2.basal_enhanced_gct = ⟨0.5, 0.5, 0.5, 0.5⟩
    ∧ (process_market_data_stream 7 intgErr dW true).2.anticipation_capacity = 0
    ∧ (process_market_data_stream 7 intgErr dW true).2.prediction_confidence = 0
    ∧ (process_market_data_stream 7 intgErr dW true).2.symbolic_resonance = 0
    ∧ (process_market_data_stream 7 intgErr dW true).2.adaptation_efficiency = 0 := by
  refine process_error_returns_neutral_fallback 7 intgErr dW true ?_
  norm_num [tryProcessMarketData, traditionalCont, encodeCont, compute_traditional_gct,
    encode_market_signals, trimAfter, lastN, intgErr, dpZero, dW, engC, exceptIsError]
